import Mathlib

/-!
Verification of the transaction-matcher core (`src/utils/parsers.ts`).

The TypeScript source is shallowly embedded below.  Strings are modelled as
Lean `String` (a wrapper around `List Char`), all string manipulation is
done on the underlying character lists with structural recursion so that
every definition evaluates in the kernel.  JavaScript numbers holding
monetary amounts are modelled as `Rat` (exact decimal values; the amounts
occurring in the program are short decimal literals, for which IEEE-754
equality agrees with rational equality).  Dates are kept as strings, as in
the source; the JavaScript `new Date(s).getTime()` valuation is either an
explicit parameter `dv : String → Int` (milliseconds) or the concrete
`isoMs` model for canonical `YYYY-MM-DD` strings.  JavaScript's
implementation-defined generic `new Date(string)` fallback inside
`normalizeDate` is a parameter `nd : String → String` (empty string means
an invalid date), and the `Date.now()`/`Math.random()` based `generateId`
plus the per-match `new Date().toISOString()` timestamp are a parameter
`meta : Nat → String × String` giving the id and timestamp of the i-th
generated record.
-/

/-- Apostrophe character (used by the quote-stripping regex of the source). -/
def apos : Char := Char.ofNat 39

/-- JavaScript whitespace class `\s` restricted to ASCII: space, tab,
line feed, vertical tab, form feed, carriage return. -/
def isSpaceJS (c : Char) : Bool :=
  c = ' ' || c = Char.ofNat 9 || c = Char.ofNat 10 || c = Char.ofNat 11 ||
  c = Char.ofNat 12 || c = Char.ofNat 13

/-- Model of `String.prototype.trim` on the character list. -/
def trimChars (cs : List Char) : List Char :=
  ((cs.dropWhile isSpaceJS).reverse.dropWhile isSpaceJS).reverse

/-- Model of `String.prototype.trim`. -/
def trimStr (s : String) : String := ⟨trimChars s.data⟩

/-- Model of `String.prototype.toLowerCase` (ASCII range, which covers all
keywords and header names used by the source). -/
def lowerStr (s : String) : String := ⟨s.data.map Char.toLower⟩

/-- Model of `String.prototype.toUpperCase` (ASCII range). -/
def upperStr (s : String) : String := ⟨s.data.map Char.toUpper⟩

/-- Model of `String.prototype.substring(0, n)`. -/
def takeStr (n : Nat) (s : String) : String := ⟨s.data.take n⟩

/-- Helper of `splitOnCharAux`: accumulates the current field (reversed). -/
def splitOnCharAux (sep : Char) : List Char → List Char → List (List Char)
  | [], acc => [acc.reverse]
  | c :: cs, acc =>
    if c = sep then acc.reverse :: splitOnCharAux sep cs []
    else splitOnCharAux sep cs (c :: acc)

/-- Model of `String.prototype.split(sep)` for a one-character separator:
keeps empty fields, `"" → [""]`. -/
def splitOnChar (sep : Char) (cs : List Char) : List (List Char) :=
  splitOnCharAux sep cs []

/-- Helper of `splitOnPred`: accumulates the current field (reversed). -/
def splitOnPredAux (p : Char → Bool) : List Char → List Char → List (List Char)
  | [], acc => [acc.reverse]
  | c :: cs, acc =>
    if p c then acc.reverse :: splitOnPredAux p cs []
    else splitOnPredAux p cs (c :: acc)

/-- Split on every character satisfying `p` (each separator character is a
field boundary, as in the regex classes `[\/\-]` of the source). -/
def splitOnPred (p : Char → Bool) (cs : List Char) : List (List Char) :=
  splitOnPredAux p cs []

/-- Whether `needle` occurs at the start of `hay`. -/
def beginsWith : List Char → List Char → Bool
  | [], _ => true
  | _ :: _, [] => false
  | n :: ns, h :: hs => n = h && beginsWith ns hs

/-- Model of `String.prototype.includes(needle)`: substring containment. -/
def hasSub (needle : List Char) : List Char → Bool
  | [] => needle.isEmpty
  | h :: hs => beginsWith needle (h :: hs) || hasSub needle hs

/-- Model of `String.prototype.endsWith(suffix)`. -/
def jsEndsWith (s suffix : String) : Bool :=
  beginsWith suffix.data.reverse s.data.reverse

/-- Number of maximal whitespace runs; `inRun` records whether the previous
character was whitespace. -/
def wsRunsAux : List Char → Bool → Nat
  | [], _ => 0
  | c :: cs, inRun =>
    if isSpaceJS c then (if inRun then 0 else 1) + wsRunsAux cs true
    else wsRunsAux cs false

/-- Model of `s.split(/\s+/).length`: one more than the number of maximal
whitespace runs (a leading or trailing run contributes an empty field, as
in JavaScript). -/
def splitWsLen (cs : List Char) : Nat := wsRunsAux cs false + 1

/-- Numeric value of a digit string (the source's `parseInt` on the
all-digit groups captured by its date regexes). -/
def natOfDigits (cs : List Char) : Nat :=
  cs.foldl (fun n c => 10 * n + (c.toNat - 48)) 0

/-- Model of `String.prototype.padStart(2, "0")`. -/
def padTwo (cs : List Char) : List Char :=
  List.replicate (2 - cs.length) '0' ++ cs

/-- All characters are ASCII digits and the group is non-empty
(`\d{1,..}` requires at least one digit). -/
def allDigits (cs : List Char) : Bool :=
  !cs.isEmpty && cs.all Char.isDigit

/-- Model of `parseFloat` applied after the source has stripped `$` and `,`:
skips leading whitespace, then an optional sign, a digit string with an
optional fractional part, and an optional exponent; returns `none` exactly
when JavaScript would return `NaN` (no digit in the mantissa).  The
`Infinity` literal, which never denotes a monetary amount, is not modelled. -/
def jsParseFloatCore (cs0 : List Char) : Option Rat :=
  let cs1 := cs0.dropWhile isSpaceJS
  let neg : Bool := cs1.headD ' ' = '-'
  let cs2 := if cs1.headD ' ' = '-' || cs1.headD ' ' = '+' then cs1.tail else cs1
  let intPart := cs2.takeWhile Char.isDigit
  let cs3 := cs2.drop intPart.length
  let fracPart := if cs3.headD ' ' = '.' then cs3.tail.takeWhile Char.isDigit else []
  let cs4 := if cs3.headD ' ' = '.' then cs3.tail.drop fracPart.length else cs3
  if intPart.isEmpty && fracPart.isEmpty then none
  else
    let mantNum : Int :=
      (if neg then -1 else 1) * (natOfDigits (intPart ++ fracPart) : Int)
    let mantDen : Nat := 10 ^ fracPart.length
    let expChars := if cs4.headD ' ' = 'e' || cs4.headD ' ' = 'E' then cs4.tail else []
    let expNeg : Bool := expChars.headD ' ' = '-'
    let expBody :=
      if expChars.headD ' ' = '-' || expChars.headD ' ' = '+' then expChars.tail else expChars
    let expDigits := expBody.takeWhile Char.isDigit
    if expDigits.isEmpty then some (mkRat mantNum mantDen)
    else if expNeg then some (mkRat mantNum (mantDen * 10 ^ natOfDigits expDigits))
    else some (mkRat (mantNum * ((10 ^ natOfDigits expDigits : Nat) : Int)) mantDen)

/-- `parseFloat` on a string. -/
def jsParseFloat (s : String) : Option Rat := jsParseFloatCore s.data

/-- Removes all `$` and `,` characters: the source's `replace(/[$,]/g, "")`. -/
def stripDollarComma (cs : List Char) : List Char :=
  cs.filter (fun c => !(c = '$' || c = ','))

/-- Shape test for the already-canonical branch `^\d{4}-\d{2}-\d{2}$` of
`normalizeDate`. -/
def isoShape (cs : List Char) : Bool :=
  match splitOnChar '-' cs with
  | [y, m, d] => y.length = 4 && m.length = 2 && d.length = 2 &&
      allDigits y && allDigits m && allDigits d
  | _ => false

/-- Capture of `^(\d{1,2})[\/\-](\d{1,2})[\/\-](\d{4})$` (month, day, year
character groups), `none` when the regex does not match. -/
def usDateParts (cs : List Char) : Option (List Char × List Char × List Char) :=
  match splitOnPred (fun c => c = '/' || c = '-') cs with
  | [m, d, y] =>
    if allDigits m && m.length ≤ 2 && allDigits d && d.length ≤ 2 &&
        allDigits y && y.length = 4 then some (m, d, y) else none
  | _ => none

/-- Capture of `^(\d{1,2})[\/\-](\d{1,2})[\/\-](\d{2})$`. -/
def shortDateParts (cs : List Char) : Option (List Char × List Char × List Char) :=
  match splitOnPred (fun c => c = '/' || c = '-') cs with
  | [m, d, y] =>
    if allDigits m && m.length ≤ 2 && allDigits d && d.length ≤ 2 &&
        allDigits y && y.length = 2 then some (m, d, y) else none
  | _ => none

/-- `normalizeDate` of the source.  `nd` models the final fallback
`new Date(dateStr)` / `toISOString` branch, whose behaviour is
implementation-defined in JavaScript; `nd` returns the canonical date or
`""` for an invalid date, applied to the trimmed input. -/
def normalizeDate (nd : String → String) (dateStr : String) : String :=
  if dateStr = "" then ""
  else
    let cs := trimChars dateStr.data
    if isoShape cs then ⟨cs⟩
    else
      match usDateParts cs with
      | some (m, d, y) => ⟨y ++ '-' :: (padTwo m ++ '-' :: padTwo d)⟩
      | none =>
        match shortDateParts cs with
        | some (m, d, y) =>
          let yy := if natOfDigits y < 50 then '2' :: '0' :: y else '1' :: '9' :: y
          ⟨yy ++ '-' :: (padTwo m ++ '-' :: padTwo d)⟩
        | none => nd ⟨cs⟩

/-- A parsed tabular row: the JavaScript `Record<string, string>` object
keyed by normalized header names.  Lookup of an absent key gives the empty
string (the falsy `undefined`). -/
abbrev Row : Type := List (String × String)

/-- Model of `row[k]`, coerced to `""` when the key is absent. -/
def rowGet (row : Row) (k : String) : String := (List.lookup k row).getD ""

/-- Model of a JavaScript object assignment `row[k] = v`: overwrites an
existing binding, otherwise appends. -/
def setKey (row : Row) (k v : String) : Row :=
  if (List.lookup k row).isSome then
    row.map (fun p => if p.1 = k then (k, v) else p)
  else row ++ [(k, v)]

/-- The `dateFields` priority list of `extractDate`. -/
def dateFields : List String :=
  ["date", "reportdate", "report date", "expensedate", "expense date",
   "transactiondate", "transaction date", "created", "submitted",
   "datecreated", "date created"]

/-- Loop of `extractDate`: first field that is present (truthy) and whose
value normalizes is returned; otherwise the scan continues. -/
def extractDateAux (nd : String → String) (row : Row) : List String → String
  | [] => ""
  | f :: fs =>
    if rowGet row f ≠ "" then
      let normalized := normalizeDate nd (rowGet row f)
      if normalized ≠ "" then normalized else extractDateAux nd row fs
    else extractDateAux nd row fs

/-- `extractDate` of the source. -/
def extractDate (nd : String → String) (row : Row) : String :=
  extractDateAux nd row dateFields

/-- The `amountFields` priority list of `extractAmount`. -/
def amountFields : List String :=
  ["amount", "total", "totalamount", "total amount", "cost", "value",
   "price", "expenseamount", "expense amount", "expense"]

/-- Loop of `extractAmount`: strips `$` and `,`, trims, converts a
parenthesized value to a negative sign, and returns the absolute value of
the first field that parses; an unparsable (NaN) field lets the scan
continue; no parsable field yields `0`. -/
def extractAmountAux (row : Row) : List String → Rat
  | [] => 0
  | f :: fs =>
    if rowGet row f ≠ "" then
      let cleaned := trimChars (stripDollarComma (rowGet row f).data)
      let cleaned2 :=
        if cleaned.headD ' ' = '(' && cleaned.getLastD ' ' = ')' then
          '-' :: (cleaned.drop 1).dropLast
        else cleaned
      match jsParseFloatCore cleaned2 with
      | some a => |a|
      | none => extractAmountAux row fs
    else extractAmountAux row fs

/-- `extractAmount` of the source. -/
def extractAmount (row : Row) : Rat := extractAmountAux row amountFields

/-- Characters kept by the alias/header normalization `[^a-z0-9\s]` removal
(after lowercasing). -/
def keepAlnumSpace (c : Char) : Bool :=
  ('a' ≤ c && c ≤ 'z') || c.isDigit || isSpaceJS c

/-- Alias normalization inside `extractField`:
`name.toLowerCase().replace(/[^a-z0-9\s]/g, "")`. -/
def normalizeAlias (name : String) : String :=
  ⟨(name.data.map Char.toLower).filter keepAlnumSpace⟩

/-- Loop of `extractField`: tries each alias normalized, then as a literal
key; a value is accepted when it is truthy and trims to a non-empty string. -/
def extractFieldAux (row : Row) : List String → String
  | [] => ""
  | n :: ns =>
    let nn := normalizeAlias n
    if rowGet row nn ≠ "" && trimStr (rowGet row nn) ≠ "" then trimStr (rowGet row nn)
    else if rowGet row n ≠ "" && trimStr (rowGet row n) ≠ "" then trimStr (rowGet row n)
    else extractFieldAux row ns

/-- `extractField` of the source. -/
def extractField (row : Row) (possibleNames : List String) : String :=
  extractFieldAux row possibleNames

/-- JavaScript word character `\w` = `[A-Za-z0-9_]`. -/
def isWordChar (c : Char) : Bool :=
  ('a' ≤ c && c ≤ 'z') || ('A' ≤ c && c ≤ 'Z') || c.isDigit || c = '_'

/-- Helper of `capitalizeWords`: `prevIsWord` tracks whether the previous
character was a word character (the `\b\w` boundary condition). -/
def capWordsAux : Bool → List Char → List Char
  | _, [] => []
  | prevIsWord, c :: cs =>
    (if isWordChar c && !prevIsWord then c.toUpper else c) ::
      capWordsAux (isWordChar c) cs

/-- `capitalizeWords` of the source: `replace(/\b\w/g, upper)`. -/
def capitalizeWords (s : String) : String := ⟨capWordsAux false s.data⟩

/-- `BankTransaction` record of `types.ts` (the optional `rawText` and the
UI-only `matched`/`matchedTo` fields are not set by the functions studied
here and are omitted). -/
structure BankTransaction where
  id : String
  date : String
  description : String
  amount : Rat
  type : String
deriving DecidableEq, Repr, Inhabited

/-- `JobberReceipt` record of `types.ts`. -/
structure JobberReceipt where
  id : String
  date : String
  employee : String
  job : String
  amount : Rat
  description : String
  category : String
deriving DecidableEq, Repr, Inhabited

/-- `Match.confidence` union type. -/
inductive Confidence where
  | exact
  | fuzzy
deriving DecidableEq, Repr, Inhabited

/-- `Match` record of `types.ts`. -/
structure Match where
  id : String
  bankId : String
  receiptId : String
  amount : Rat
  matchDate : String
  confidence : Confidence
  daysSinceMatch : Nat
deriving DecidableEq, Repr, Inhabited

/-- The employee alias priority list used by `parseJobberCSV`. -/
def empAliasesCSV : List String :=
  ["employee", "teammember", "submittedby", "submitted by", "user", "staff",
   "person", "name", "team member"]

/-- The employee alias priority list used by `parseJobberExcel` (same set,
different order). -/
def empAliasesExcel : List String :=
  ["employee", "teammember", "team member", "submittedby", "submitted by",
   "user", "staff", "person", "name"]

/-- The job alias priority list (shared by both receipt parsers). -/
def jobAliases : List String :=
  ["job", "jobnumber", "job number", "project", "workorder", "work order",
   "wo", "site", "job #", "job#"]

/-- The description alias priority list (shared by both receipt parsers). -/
def descAliases : List String :=
  ["description", "expensename", "expense name", "details", "memo", "note",
   "item", "expense"]

/-- The category alias priority list (shared by both receipt parsers). -/
def catAliases : List String :=
  ["category", "expensetype", "expense type", "type", "account"]

/-- Shared per-row body of both receipt parsers: extracts the fields, and
emits a receipt exactly when the date normalized and the amount is
positive.  The `id` is attached afterwards (see `attachReceiptIds`). -/
def processReceiptRow (nd : String → String) (empAliases : List String)
    (row : Row) : Option JobberReceipt :=
  let date := extractDate nd row
  let employee := let e := extractField row empAliases; if e = "" then "Unknown" else e
  let job := let j := extractField row jobAliases; if j = "" then "General" else j
  let amount := extractAmount row
  let description := extractField row descAliases
  let category := extractField row catAliases
  if date ≠ "" ∧ 0 < amount then
    some { id := "", date := date, employee := capitalizeWords employee,
           job := upperStr job, amount := amount,
           description := takeStr 150 description, category := category }
  else none

/-- Row body of `parseJobberCSV`. -/
def processReceiptRowCSV (nd : String → String) (row : Row) : Option JobberReceipt :=
  processReceiptRow nd empAliasesCSV row

/-- Row body of `parseJobberExcel`. -/
def processReceiptRowExcel (nd : String → String) (row : Row) : Option JobberReceipt :=
  processReceiptRow nd empAliasesExcel row

/-- Models the stream of `generateId` results: the i-th emitted record gets
id `gen i`. -/
def attachReceiptIds (gen : Nat → String) (l : List JobberReceipt) : List JobberReceipt :=
  l.enum.map (fun p => { p.2 with id := gen p.1 })

/-- `parseJobberCSV` of the source, over the record rows produced by
PapaParse (`header: true` with the normalizing `transformHeader`, so the
keys of each `Row` are already lowercased and stripped of characters
outside `[a-z0-9\s]`).  `Except.error` models `reject`. -/
def parseJobberCSV (gen : Nat → String) (nd : String → String)
    (rows : List Row) : Except String (List JobberReceipt) :=
  if rows.isEmpty then .error "CSV file appears to be empty"
  else
    let receipts := rows.filterMap (processReceiptRowCSV nd)
    if receipts.isEmpty then
      .error "No valid receipts found in file. Please check the column headers."
    else .ok (attachReceiptIds gen receipts)

/-- Header-cell normalization of `parseJobberExcel`:
`String(h).trim().toLowerCase().replace(/[^a-z0-9\s]/g, "")`. -/
def normalizeHeaderCell (h : String) : String :=
  ⟨((trimChars h.data).map Char.toLower).filter keepAlnumSpace⟩

/-- The `rowData` object built for one Excel data row:
`headers.forEach((header, index) => rowData[header] = String(row[index] || "").trim())`. -/
def rowDataOf (headers cells : List String) : Row :=
  headers.enum.foldl (fun row p => setKey row p.2 (trimStr (cells.getD p.1 ""))) []

/-- The receipts surviving extraction in `parseJobberExcel` (data rows are
`jsonData[1..]`; an empty row is skipped by the `!row || row.length === 0`
guard). -/
def excelSurvivors (nd : String → String) (jsonData : List (List String)) :
    List JobberReceipt :=
  let headers := (jsonData.headD []).map normalizeHeaderCell
  jsonData.tail.filterMap (fun cells =>
    if cells.isEmpty then none
    else processReceiptRowExcel nd (rowDataOf headers cells))

/-- `parseJobberExcel` of the source, over the `sheet_to_json` row matrix
(`header: 1`): fewer than two rows rejects with the empty-file error;
otherwise the surviving receipts are resolved — including the empty list. -/
def parseJobberExcel (gen : Nat → String) (nd : String → String)
    (jsonData : List (List String)) : Except String (List JobberReceipt) :=
  if jsonData.length < 2 then
    .error "Excel file appears to be empty or has no data rows"
  else .ok (attachReceiptIds gen (excelSurvivors nd jsonData))

/-- The keyword set of `isHeaderLine`. -/
def headerKeywords : List String :=
  ["date", "description", "amount", "balance", "transaction", "posting"]

/-- `isHeaderLine` of the source: the lowercased line contains at least one
keyword and splits into at most 5 whitespace-separated tokens. -/
def isHeaderLine (line : String) : Bool :=
  let lower := line.data.map Char.toLower
  headerKeywords.any (fun h => hasSub h.data lower) && splitWsLen lower ≤ 5

/-- Strip of the per-field regex `replace(/^["']|["']$/g, "")`: removes one
leading and one trailing quote character (double or single). -/
def stripEdgeQuotes (cs : List Char) : List Char :=
  let isQuote : Char → Bool := fun c => c = '"' || c = apos
  let cs1 := match cs with
    | c :: rest => if isQuote c then rest else cs
    | [] => []
  if isQuote (cs1.getLastD ' ') then cs1.dropLast else cs1

/-- Row body of `parseBankCSV` applied to a non-empty trimmed line after the
header has been found.  The `id` is attached afterwards. -/
def parseBankCSVRow (nd : String → String) (t : List Char) : Option BankTransaction :=
  let parts := (splitOnChar ',' t).map (fun p => stripEdgeQuotes (trimChars p))
  if parts.length < 3 then none
  else
    let date := normalizeDate nd ⟨parts.headD []⟩
    let description : String := ⟨parts.getD 1 []⟩
    let amountStr := stripDollarComma (parts.getLastD [])
    match jsParseFloatCore amountStr with
    | none => none
    | some a =>
      if date ≠ "" ∧ description ≠ "" ∧ 2 < description.data.length then
        some { id := "", date := date, description := takeStr 150 description,
               amount := |a|, type := if a < 0 then "debit" else "credit" }
      else none

/-- The line loop of `parseBankCSV` with its `headerFound` flag: blank lines
are skipped; until a header-heuristic line is seen every line is discarded
(the header line itself is consumed); afterwards each line is parsed as a
data row, silently skipping failures. -/
def parseBankCSVAux (nd : String → String) : Bool → List String → List BankTransaction
  | _, [] => []
  | headerFound, l :: ls =>
    let t := trimChars l.data
    if t.isEmpty then parseBankCSVAux nd headerFound ls
    else if headerFound then
      match parseBankCSVRow nd t with
      | some tx => tx :: parseBankCSVAux nd true ls
      | none => parseBankCSVAux nd true ls
    else if isHeaderLine ⟨t⟩ then parseBankCSVAux nd true ls
    else parseBankCSVAux nd false ls

/-- Model of `text.split(/\r?\n/)`: split on line feeds, dropping one
carriage return at the end of each field. -/
def splitLines (text : String) : List String :=
  (splitOnChar (Char.ofNat 10) text.data).map (fun cs =>
    if cs.getLastD ' ' = Char.ofNat 13 then ⟨cs.dropLast⟩ else ⟨cs⟩)

/-- Models the stream of `generateId("bank")` results. -/
def attachBankIds (gen : Nat → String) (l : List BankTransaction) : List BankTransaction :=
  l.enum.map (fun p => { p.2 with id := gen p.1 })

/-- `parseBankCSV` of the source. -/
def parseBankCSV (gen : Nat → String) (nd : String → String) (text : String) :
    List BankTransaction :=
  attachBankIds gen (parseBankCSVAux nd false (splitLines text))

/-- The dispatch outcome of `parseJobberFile`. -/
inductive JobberRoute where
  | excel
  | csv
  | sniffCsv
  | unsupported
deriving DecidableEq, Repr

/-- The dispatch logic of `parseJobberFile`: Excel extensions go to the
Excel parser, `.csv` to the CSV parser; any other extension has its content
sniffed — a comma or tab sends it to the CSV parser, and only otherwise is
the unsupported-format error thrown. -/
def jobberRoute (fileName content : String) : JobberRoute :=
  let fn := lowerStr fileName
  if jsEndsWith fn ".xlsx" || jsEndsWith fn ".xls" then .excel
  else if jsEndsWith fn ".csv" then .csv
  else if content.data.contains ',' || content.data.contains (Char.ofNat 9) then .sniffCsv
  else .unsupported

/-- Civil-calendar day number from the Unix epoch (Howard Hinnant's
`days_from_civil`), the value underlying `new Date("YYYY-MM-DD").getTime()`. -/
def daysFromCivil (y m d : Int) : Int :=
  let y1 := if m ≤ 2 then y - 1 else y
  let era := y1.fdiv 400
  let yoe := y1 - era * 400
  let mp := (m + 9) % 12
  let doy := (153 * mp + 2).fdiv 5 + d - 1
  let doe := yoe * 365 + yoe.fdiv 4 - yoe.fdiv 100 + doy
  era * 146097 + doe - 719468

/-- `new Date(s).getTime()` for a canonical `YYYY-MM-DD` string: midnight
UTC in milliseconds.  Only ever applied to canonical strings; other inputs
are given the junk value 0. -/
def isoMs (s : String) : Int :=
  match splitOnChar '-' s.data with
  | [ys, ms, ds] =>
    if allDigits ys && allDigits ms && allDigits ds then
      daysFromCivil (natOfDigits ys) (natOfDigits ms) (natOfDigits ds) * 86400000
    else 0
  | _ => 0

/-- A `Match` minus the two generated fields `id` and `matchDate`. -/
structure MatchCore where
  bankId : String
  receiptId : String
  amount : Rat
  confidence : Confidence
  daysSinceMatch : Nat
deriving DecidableEq, Repr, Inhabited

/-- Erases the generated `id` and `matchDate` fields of a `Match`. -/
def stripMatch (m : Match) : MatchCore :=
  { bankId := m.bankId, receiptId := m.receiptId, amount := m.amount,
    confidence := m.confidence, daysSinceMatch := m.daysSinceMatch }

/-- The receipt ordering of `findExactMatches`:
`[...jobberReceipts].sort((a, b) => dateMs(b) - dateMs(a))` — a stable sort
by date descending.  `List.insertionSort` with this total relation produces
exactly the stable descending order of the JavaScript sort. -/
def sortReceipts (dv : String → Int) (receipts : List JobberReceipt) :
    List JobberReceipt :=
  List.insertionSort (fun a b => dv b.date ≤ dv a.date) receipts

/-- The absolute whole-day gap of `findExactMatches`:
`Math.abs(Math.floor((bankMs - receiptMs) / 86400000))`; `Int.fdiv` is the
flooring division `Math.floor` computes on the exact quotient. -/
def dayGap (dv : String → Int) (bankDate receiptDate : String) : Nat :=
  ((dv bankDate - dv receiptDate).fdiv 86400000).natAbs

/-- The match record emitted for a found pair (minus the generated fields):
amount copied from the receipt, confidence `exact` iff the day gap is at
most 7 (`daysDiff` is computed once in the source; it is referenced twice
here, denoting the same pure value). -/
def mkMatchCore (dv : String → Int) (bt : BankTransaction) (r : JobberReceipt) :
    MatchCore :=
  { bankId := bt.id, receiptId := r.id, amount := r.amount,
    confidence := if dayGap dv bt.date r.date ≤ 7 then .exact else .fuzzy,
    daysSinceMatch := dayGap dv bt.date r.date }

/-- One iteration of the receipt loop of `findExactMatches`.  The state is
(matches so far, used bank ids, used receipt ids).  The candidate bucket
`bankByAmount.get(receipt.amount) || []` holds exactly the bank
transactions of that amount in input order, i.e. a filter of the input
list. -/
def matchStep (dv : String → Int) (bankTransactions : List BankTransaction)
    (st : List MatchCore × List String × List String) (r : JobberReceipt) :
    List MatchCore × List String × List String :=
  if st.2.2.contains r.id then st
  else
    match (bankTransactions.filter (fun bt => decide (bt.amount = r.amount))).find?
        (fun bt => !(st.2.1.contains bt.id)) with
    | none => st
    | some bt =>
      (st.1 ++ [mkMatchCore dv bt r], st.2.1 ++ [bt.id], st.2.2 ++ [r.id])

/-- `findExactMatches` of the source, minus the generated `id`/`matchDate`
fields: receipts are walked in stable date-descending order, each consuming
the first not-yet-used bank transaction of exactly its amount. -/
def findExactMatchesCore (dv : String → Int)
    (bankTransactions : List BankTransaction)
    (jobberReceipts : List JobberReceipt) : List MatchCore :=
  ((sortReceipts dv jobberReceipts).foldl
    (matchStep dv bankTransactions) ([], [], [])).1

/-- `findExactMatches` of the source.  `meta i` is the pair
(`generateId("match")` result, `new Date().toISOString()` result) for the
i-th emitted match. -/
def findExactMatches (meta : Nat → String × String) (dv : String → Int)
    (bankTransactions : List BankTransaction)
    (jobberReceipts : List JobberReceipt) : List Match :=
  (findExactMatchesCore dv bankTransactions jobberReceipts).enum.map
    (fun p => { id := (meta p.1).1, bankId := p.2.bankId,
                receiptId := p.2.receiptId, amount := p.2.amount,
                matchDate := (meta p.1).2, confidence := p.2.confidence,
                daysSinceMatch := p.2.daysSinceMatch })

/-- `AgingBucket` record of `types.ts`; `maxDays = none` models the
JavaScript `Infinity` upper bound of the last bucket. -/
structure AgingBucket where
  range : String
  label : String
  minDays : Int
  maxDays : Option Int
  color : String
  bgColor : String
  transactions : List BankTransaction
  totalAmount : Rat
deriving DecidableEq, Repr, Inhabited

/-- First bucket literal of `getAgingBuckets`. -/
def bucketSpec0 : AgingBucket :=
  { range := "0-7", label := "Current", minDays := 0, maxDays := some 7,
    color := "#22c55e", bgColor := "bg-green-100 dark:bg-green-900/30",
    transactions := [], totalAmount := 0 }

/-- Second bucket literal of `getAgingBuckets`. -/
def bucketSpec1 : AgingBucket :=
  { range := "8-14", label := "Warning", minDays := 8, maxDays := some 14,
    color := "#eab308", bgColor := "bg-yellow-100 dark:bg-yellow-900/30",
    transactions := [], totalAmount := 0 }

/-- Third bucket literal of `getAgingBuckets`. -/
def bucketSpec2 : AgingBucket :=
  { range := "15-30", label := "Attention", minDays := 15, maxDays := some 30,
    color := "#f97316", bgColor := "bg-orange-100 dark:bg-orange-900/30",
    transactions := [], totalAmount := 0 }

/-- Fourth bucket literal of `getAgingBuckets`. -/
def bucketSpec3 : AgingBucket :=
  { range := "31-60", label := "Critical", minDays := 31, maxDays := some 60,
    color := "#ef4444", bgColor := "bg-red-100 dark:bg-red-900/30",
    transactions := [], totalAmount := 0 }

/-- Last bucket literal of `getAgingBuckets` (`maxDays: Infinity`). -/
def bucketSpec4 : AgingBucket :=
  { range := "60+", label := "Overdue", minDays := 61, maxDays := none,
    color := "#dc2626", bgColor := "bg-red-200 dark:bg-red-900/50",
    transactions := [], totalAmount := 0 }

/-- The `buckets` array literal of `getAgingBuckets`. -/
def allBucketSpecs : List AgingBucket :=
  [bucketSpec0, bucketSpec1, bucketSpec2, bucketSpec3, bucketSpec4]

/-- The per-bucket test `days >= b.minDays && days <= b.maxDays`
(`days <= Infinity` is always true). -/
def inBucket (days : Int) (b : AgingBucket) : Bool :=
  decide (b.minDays ≤ days) &&
    (match b.maxDays with
     | some mx => decide (days ≤ mx)
     | none => true)

/-- Index of the first element satisfying `p` (the index of the
`Array.prototype.find` result). -/
def findIdxA (p : AgingBucket → Bool) : List AgingBucket → Option Nat
  | [] => none
  | b :: bs => if p b then some 0 else (findIdxA p bs).map (· + 1)

/-- Index of the bucket a given age is placed in:
`buckets.find(b => days >= b.minDays && days <= b.maxDays) || buckets[buckets.length - 1]`.
The bucket bounds never change during the loop, so the `find` over the
mutating array always inspects exactly the literal bounds. -/
def bucketIdxFor (days : Int) : Nat :=
  (findIdxA (inBucket days) allBucketSpecs).getD (allBucketSpecs.length - 1)

/-- The whole-day age of a transaction:
`Math.floor((now.getTime() - new Date(t.date).getTime()) / 86400000)`. -/
def ageDays (now : Int) (dv : String → Int) (t : BankTransaction) : Int :=
  (now - dv t.date).fdiv 86400000

/-- One output bucket of `getAgingBuckets`: the source's `forEach` pushes
each transaction onto the bucket found for its age and adds its amount, so
(the bounds being constant) bucket `i` ends holding, in input order,
exactly the transactions whose age maps to index `i`, and the sum of their
amounts. -/
def mkAgingBucket (spec : AgingBucket) (i : Nat) (now : Int)
    (dv : String → Int) (transactions : List BankTransaction) : AgingBucket :=
  let mine := transactions.filter (fun t => bucketIdxFor (ageDays now dv t) == i)
  { spec with transactions := mine,
              totalAmount := (mine.map (fun t => t.amount)).foldl (· + ·) 0 }

/-- `getAgingBuckets` of the source, with the reference clock
`now = new Date().getTime()` and the date valuation `dv` explicit. -/
def getAgingBuckets (now : Int) (dv : String → Int)
    (transactions : List BankTransaction) : List AgingBucket :=
  [mkAgingBucket bucketSpec0 0 now dv transactions,
   mkAgingBucket bucketSpec1 1 now dv transactions,
   mkAgingBucket bucketSpec2 2 now dv transactions,
   mkAgingBucket bucketSpec3 3 now dv transactions,
   mkAgingBucket bucketSpec4 4 now dv transactions]

/-- A membership reading of the `Set.has` model `List.contains`. -/
theorem strContains_iff (l : List String) (a : String) :
    l.contains a = true ↔ a ∈ l := by
  simp [List.contains, List.elem_iff]

/-- Invariant of the receipt loop of `findExactMatchesCore`: every emitted
match has its bank id and receipt id recorded in the respective consumed
set, stems from a bank transaction of the input list and a receipt of the
input list of exactly the match amount, and no two emitted matches share a
bank id or a receipt id. -/
def MatchLoopInv (banks : List BankTransaction) (receipts : List JobberReceipt)
    (st : List MatchCore × List String × List String) : Prop :=
  (∀ m ∈ st.1,
      m.bankId ∈ st.2.1 ∧ m.receiptId ∈ st.2.2 ∧
      (∃ bt, bt ∈ banks ∧ bt.id = m.bankId ∧ bt.amount = m.amount) ∧
      (∃ rc, rc ∈ receipts ∧ rc.id = m.receiptId ∧ rc.amount = m.amount)) ∧
  st.1.Pairwise (fun m1 m2 => m1.bankId ≠ m2.bankId ∧ m1.receiptId ≠ m2.receiptId)

/-- One `matchStep` preserves the loop invariant: the skip guard keeps a
consumed receipt out, and the `find?` predicate keeps a consumed bank
transaction out, so the new match is disjoint from all previous ones. -/
theorem matchStep_inv (dv : String → Int) (banks : List BankTransaction)
    (receipts : List JobberReceipt)
    (st : List MatchCore × List String × List String) (r : JobberReceipt)
    (hr : r ∈ receipts) (h : MatchLoopInv banks receipts st) :
    MatchLoopInv banks receipts (matchStep dv banks st r) := by
  obtain ⟨ms, ub, ur⟩ := st
  obtain ⟨h1, h2⟩ := h
  unfold matchStep
  split
  · exact ⟨h1, h2⟩
  · rename_i hused
    split
    · exact ⟨h1, h2⟩
    · rename_i bt hfind
      have hbtmem : bt ∈ banks ∧ decide (bt.amount = r.amount) = true :=
        List.mem_filter.1 (List.mem_of_find?_eq_some hfind)
      have hbtamt : bt.amount = r.amount := of_decide_eq_true hbtmem.2
      have hbtfree : (ub.contains bt.id) = false := by
        have := List.find?_some hfind
        simpa using this
      have hbtnotmem : bt.id ∉ ub := fun hm =>
        by rw [(strContains_iff ub bt.id).2 hm] at hbtfree; cases hbtfree
      have hrnotmem : r.id ∉ ur := by
        intro hm
        exact hused ((strContains_iff ur r.id).2 hm)
      constructor
      · intro m hm
        rcases List.mem_append.1 hm with hold | hnew
        · obtain ⟨ha, hb, hc, hd⟩ := h1 m hold
          exact ⟨List.mem_append_left _ ha, List.mem_append_left _ hb, hc, hd⟩
        · rw [List.mem_singleton.1 hnew]
          refine ⟨by simp [mkMatchCore], by simp [mkMatchCore],
            ⟨bt, hbtmem.1, rfl, hbtamt⟩, ⟨r, hr, rfl, rfl⟩⟩
      · refine List.pairwise_append.2 ⟨h2, by simp, ?_⟩
        intro m1 hm1 m2 hm2
        rw [List.mem_singleton.1 hm2]
        obtain ⟨ha, hb, _, _⟩ := h1 m1 hm1
        have hb1 : (mkMatchCore dv bt r).bankId = bt.id := rfl
        have hb2 : (mkMatchCore dv bt r).receiptId = r.id := rfl
        rw [hb1, hb2]
        exact ⟨fun he => hbtnotmem (he ▸ ha), fun he => hrnotmem (he ▸ hb)⟩

/-- Folding `matchStep` over any list of receipts drawn from the input
preserves the loop invariant. -/
theorem foldl_matchStep_inv (dv : String → Int) (banks : List BankTransaction)
    (receipts : List JobberReceipt) :
    ∀ (l : List JobberReceipt) (st : List MatchCore × List String × List String),
      (∀ r ∈ l, r ∈ receipts) → MatchLoopInv banks receipts st →
      MatchLoopInv banks receipts (l.foldl (matchStep dv banks) st)
  | [], _, _, h => h
  | r :: l, st, hsub, h => by
    have hstep := matchStep_inv dv banks receipts st r (hsub r (by simp)) h
    exact foldl_matchStep_inv dv banks receipts l _
      (fun x hx => hsub x (List.mem_cons_of_mem _ hx)) hstep

/-- The final state of the `findExactMatches` loop satisfies the invariant. -/
theorem findExactMatches_final_inv (dv : String → Int)
    (banks : List BankTransaction) (receipts : List JobberReceipt) :
    MatchLoopInv banks receipts
      ((sortReceipts dv receipts).foldl (matchStep dv banks) ([], [], [])) := by
  refine foldl_matchStep_inv dv banks receipts _ _ ?_ ⟨by simp, by simp⟩
  intro r hmem
  exact (List.mem_insertionSort _).1 hmem

/-- Erasing the generated fields of `findExactMatches` recovers exactly
`findExactMatchesCore`: the id/timestamp metadata touches no other field. -/
theorem findExactMatches_map_strip (meta : Nat → String × String)
    (dv : String → Int) (banks : List BankTransaction)
    (receipts : List JobberReceipt) :
    (findExactMatches meta dv banks receipts).map stripMatch =
      findExactMatchesCore dv banks receipts := by
  unfold findExactMatches
  rw [List.map_map]
  have : (stripMatch ∘ fun p : Nat × MatchCore =>
      ({ id := (meta p.1).1, bankId := p.2.bankId, receiptId := p.2.receiptId,
         amount := p.2.amount, matchDate := (meta p.1).2,
         confidence := p.2.confidence, daysSinceMatch := p.2.daysSinceMatch } : Match)) =
      Prod.snd := by
    funext p
    rfl
  rw [this, List.enum, List.enumFrom_map_snd]

/-- C1: in the `Match` list returned by `findExactMatches`, every
`bankId` and every `receiptId` appears in at most one `Match`: the
returned list is pairwise disjoint in both id fields, for every input
pair of collections (and any id metadata and date valuation). -/
theorem findExactMatches_injective (meta : Nat → String × String)
    (dv : String → Int) (banks : List BankTransaction)
    (receipts : List JobberReceipt) :
    (findExactMatches meta dv banks receipts).Pairwise
      (fun m1 m2 => m1.bankId ≠ m2.bankId ∧ m1.receiptId ≠ m2.receiptId) := by
  have hinv : (findExactMatchesCore dv banks receipts).Pairwise
      (fun m1 m2 => m1.bankId ≠ m2.bankId ∧ m1.receiptId ≠ m2.receiptId) :=
    (findExactMatches_final_inv dv banks receipts).2
  rw [← findExactMatches_map_strip meta dv banks receipts] at hinv
  exact List.pairwise_map.1 hinv

/-- C2: every returned `Match` pairs a bank transaction of the input with
a receipt of the input whose amounts are exactly equal, and carries that
receipt amount as its own `amount`; no tolerance exists. -/
theorem findExactMatches_exact_amount (meta : Nat → String × String)
    (dv : String → Int) (banks : List BankTransaction)
    (receipts : List JobberReceipt) (m : Match)
    (hm : m ∈ findExactMatches meta dv banks receipts) :
    ∃ bt rc, bt ∈ banks ∧ rc ∈ receipts ∧ bt.id = m.bankId ∧
      rc.id = m.receiptId ∧ bt.amount = rc.amount ∧ m.amount = rc.amount := by
  have hcore : stripMatch m ∈ findExactMatchesCore dv banks receipts := by
    rw [← findExactMatches_map_strip meta dv banks receipts]
    exact List.mem_map_of_mem stripMatch hm
  obtain ⟨_, _, ⟨bt, hbt, hbid, hbamt⟩, ⟨rc, hrc, hrid, hramt⟩⟩ :=
    (findExactMatches_final_inv dv banks receipts).1 (stripMatch m) hcore
  exact ⟨bt, rc, hbt, hrc, hbid, hrid, by rw [hbamt, hramt], hramt.symm⟩

/-- The bank transaction of spec Scenario D: amount 50.00, dated
2024-01-09. -/
def demoBank : BankTransaction :=
  { id := "B1", date := "2024-01-09", description := "supply run",
    amount := 50, type := "debit" }

/-- The newer Scenario D receipt: amount 50.00, dated 2024-01-10. -/
def demoReceiptNew : JobberReceipt :=
  { id := "R1", date := "2024-01-10", employee := "Jane Doe", job := "J100",
    amount := 50, description := "materials", category := "" }

/-- The older Scenario D receipt: amount 50.00, dated 2024-01-01. -/
def demoReceiptOld : JobberReceipt :=
  { id := "R2", date := "2024-01-01", employee := "Sam Lee", job := "J200",
    amount := 50, description := "materials", category := "" }

/-- A fixed id/timestamp stream for concrete runs. -/
def demoMeta : Nat → String × String :=
  fun _ => ("match-0", "2024-02-01T00:00:00.000Z")

/-- The one match produced when `demoBank` meets `demoReceiptNew` under
`demoMeta` (their dates coincide up to one day, amounts are both 50). -/
def demoMatch : Match :=
  { id := "match-0", bankId := "B1", receiptId := "R1", amount := 50,
    matchDate := "2024-02-01T00:00:00.000Z", confidence := .exact,
    daysSinceMatch := 1 }

/-- Witness for C2 at a concrete run containing one match. -/
theorem findExactMatches_exact_amount_witness :
    ∃ bt rc, bt ∈ [demoBank] ∧ rc ∈ [demoReceiptNew] ∧
      bt.id = demoMatch.bankId ∧ rc.id = demoMatch.receiptId ∧
      bt.amount = rc.amount ∧ demoMatch.amount = rc.amount :=
  findExactMatches_exact_amount demoMeta isoMs [demoBank] [demoReceiptNew]
    demoMatch (by decide)

/-- C3: with receipts of amount 50.00 dated 2024-01-10 and 2024-01-01 and
one bank transaction of amount 50.00 dated 2024-01-09, the receipt
ordering (date descending) puts the 2024-01-10 receipt first, which
consumes the only bank transaction, giving exactly one match with a
1-day gap and confidence `exact`; the 2024-01-01 receipt stays unmatched. -/
theorem scenarioD_greedy (meta : Nat → String × String) :
    (findExactMatches meta isoMs [demoBank] [demoReceiptOld, demoReceiptNew]).map
        stripMatch =
      [{ bankId := "B1", receiptId := "R1", amount := 50,
         confidence := Confidence.exact, daysSinceMatch := 1 }] ∧
    sortReceipts isoMs [demoReceiptOld, demoReceiptNew] =
      [demoReceiptNew, demoReceiptOld] := by
  refine ⟨?_, by decide⟩
  rw [findExactMatches_map_strip]
  decide

/-- Counterexample to C4 as stated: two runs of `findExactMatches` on the
very same input collections, differing only in the clock/random-id stream
feeding `generateId` and `matchDate`, return unequal `Match` lists — the
`id` fields are `id-run1` versus `id-run2`. -/
theorem findExactMatches_runs_differ :
    ((findExactMatches (fun _ => ("id-run1", "2024-02-01T10:00:00.000Z")) isoMs
        [demoBank] [demoReceiptOld, demoReceiptNew]) ==
      (findExactMatches (fun _ => ("id-run2", "2024-02-01T10:00:05.000Z")) isoMs
        [demoBank] [demoReceiptOld, demoReceiptNew])) = false ∧
    (findExactMatches (fun _ => ("id-run1", "2024-02-01T10:00:00.000Z")) isoMs
        [demoBank] [demoReceiptOld, demoReceiptNew]).map (fun m => m.id) =
      ["id-run1"] ∧
    (findExactMatches (fun _ => ("id-run2", "2024-02-01T10:00:05.000Z")) isoMs
        [demoBank] [demoReceiptOld, demoReceiptNew]).map (fun m => m.id) =
      ["id-run2"] := by
  decide

/-- C4 (amended): two runs of `findExactMatches` on the same two input
collections (same order) yield `Match` lists that are identical after
erasing the generated `id` and `matchDate` fields, whatever the clock and
random-id streams of the two runs were. -/
theorem findExactMatches_deterministic_up_to_generated
    (meta1 meta2 : Nat → String × String) (dv : String → Int)
    (banks : List BankTransaction) (receipts : List JobberReceipt) :
    (findExactMatches meta1 dv banks receipts).map stripMatch =
      (findExactMatches meta2 dv banks receipts).map stripMatch := by
  rw [findExactMatches_map_strip, findExactMatches_map_strip]

/-- Ages 0..7 land in bucket 0 (Current). -/
theorem bucketIdxFor_range0 (d : Int) (h1 : 0 ≤ d) (h2 : d ≤ 7) :
    bucketIdxFor d = 0 := by
  have e0 : inBucket d bucketSpec0 = true := by
    simp [inBucket, bucketSpec0]
    omega
  simp [bucketIdxFor, allBucketSpecs, findIdxA, e0]

/-- Ages 8..14 land in bucket 1 (Warning). -/
theorem bucketIdxFor_range1 (d : Int) (h1 : 8 ≤ d) (h2 : d ≤ 14) :
    bucketIdxFor d = 1 := by
  have e0 : inBucket d bucketSpec0 = false := by
    simp [inBucket, bucketSpec0]
    omega
  have e1 : inBucket d bucketSpec1 = true := by
    simp [inBucket, bucketSpec1]
    omega
  simp [bucketIdxFor, allBucketSpecs, findIdxA, e0, e1]

/-- Ages 15..30 land in bucket 2 (Attention). -/
theorem bucketIdxFor_range2 (d : Int) (h1 : 15 ≤ d) (h2 : d ≤ 30) :
    bucketIdxFor d = 2 := by
  have e0 : inBucket d bucketSpec0 = false := by
    simp [inBucket, bucketSpec0]
    omega
  have e1 : inBucket d bucketSpec1 = false := by
    simp [inBucket, bucketSpec1]
    omega
  have e2 : inBucket d bucketSpec2 = true := by
    simp [inBucket, bucketSpec2]
    omega
  simp [bucketIdxFor, allBucketSpecs, findIdxA, e0, e1, e2]

/-- Ages 31..60 land in bucket 3 (Critical). -/
theorem bucketIdxFor_range3 (d : Int) (h1 : 31 ≤ d) (h2 : d ≤ 60) :
    bucketIdxFor d = 3 := by
  have e0 : inBucket d bucketSpec0 = false := by
    simp [inBucket, bucketSpec0]
    omega
  have e1 : inBucket d bucketSpec1 = false := by
    simp [inBucket, bucketSpec1]
    omega
  have e2 : inBucket d bucketSpec2 = false := by
    simp [inBucket, bucketSpec2]
    omega
  have e3 : inBucket d bucketSpec3 = true := by
    simp [inBucket, bucketSpec3]
    omega
  simp [bucketIdxFor, allBucketSpecs, findIdxA, e0, e1, e2, e3]

/-- Ages 61 and beyond land in bucket 4 (Overdue). -/
theorem bucketIdxFor_range4 (d : Int) (h1 : 61 ≤ d) :
    bucketIdxFor d = 4 := by
  have e0 : inBucket d bucketSpec0 = false := by
    simp [inBucket, bucketSpec0]
    omega
  have e1 : inBucket d bucketSpec1 = false := by
    simp [inBucket, bucketSpec1]
    omega
  have e2 : inBucket d bucketSpec2 = false := by
    simp [inBucket, bucketSpec2]
    omega
  have e3 : inBucket d bucketSpec3 = false := by
    simp [inBucket, bucketSpec3]
    omega
  have e4 : inBucket d bucketSpec4 = true := by
    simp [inBucket, bucketSpec4]
    omega
  simp [bucketIdxFor, allBucketSpecs, findIdxA, e0, e1, e2, e3, e4]

/-- A negative age satisfies no bucket test (every `minDays` is
non-negative), so the `|| buckets[buckets.length - 1]` fallback assigns the
last bucket, index 4. -/
theorem bucketIdxFor_neg (d : Int) (h : d < 0) : bucketIdxFor d = 4 := by
  have e0 : inBucket d bucketSpec0 = false := by
    simp [inBucket, bucketSpec0]
    omega
  have e1 : inBucket d bucketSpec1 = false := by
    simp [inBucket, bucketSpec1]
    omega
  have e2 : inBucket d bucketSpec2 = false := by
    simp [inBucket, bucketSpec2]
    omega
  have e3 : inBucket d bucketSpec3 = false := by
    simp [inBucket, bucketSpec3]
    omega
  have e4 : inBucket d bucketSpec4 = false := by
    simp [inBucket, bucketSpec4]
    omega
  simp [bucketIdxFor, allBucketSpecs, findIdxA, e0, e1, e2, e3, e4]

/-- Membership in an output bucket of `getAgingBuckets` is membership in
the input filtered by bucket index. -/
theorem mem_mkAgingBucket (spec : AgingBucket) (i : Nat) (now : Int)
    (dv : String → Int) (ts : List BankTransaction) (t : BankTransaction) :
    t ∈ (mkAgingBucket spec i now dv ts).transactions ↔
      t ∈ ts ∧ bucketIdxFor (ageDays now dv t) = i := by
  simp [mkAgingBucket, List.mem_filter]

/-- C5: `getAgingBuckets` puts a transaction aged exactly 7 days in the
Current bucket (index 0), aged 8 in Warning (index 1), aged 60 in Critical
(index 3) and aged 61 in Overdue (index 4); in general every transaction
whose age satisfies a returned bucket's inclusive `minDays`/`maxDays`
bounds is placed in that bucket, so boundary ages fall into the lower
bucket. -/
theorem agingBuckets_boundaries (now : Int) (dv : String → Int)
    (ts : List BankTransaction) (t7 t8 t60 t61 t : BankTransaction)
    (i : Nat) (b : AgingBucket) :
    (t7 ∈ ts → ageDays now dv t7 = 7 →
      t7 ∈ ((getAgingBuckets now dv ts).getD 0 default).transactions) ∧
    (t8 ∈ ts → ageDays now dv t8 = 8 →
      t8 ∈ ((getAgingBuckets now dv ts).getD 1 default).transactions) ∧
    (t60 ∈ ts → ageDays now dv t60 = 60 →
      t60 ∈ ((getAgingBuckets now dv ts).getD 3 default).transactions) ∧
    (t61 ∈ ts → ageDays now dv t61 = 61 →
      t61 ∈ ((getAgingBuckets now dv ts).getD 4 default).transactions) ∧
    ((getAgingBuckets now dv ts).get? i = some b → t ∈ ts →
      inBucket (ageDays now dv t) b = true → t ∈ b.transactions) := by
  refine ⟨?_, ?_, ?_, ?_, ?_⟩
  · intro hmem hage
    show t7 ∈ (mkAgingBucket bucketSpec0 0 now dv ts).transactions
    exact (mem_mkAgingBucket _ _ _ _ _ _).2
      ⟨hmem, by rw [hage]; exact bucketIdxFor_range0 7 (by omega) (by omega)⟩
  · intro hmem hage
    show t8 ∈ (mkAgingBucket bucketSpec1 1 now dv ts).transactions
    exact (mem_mkAgingBucket _ _ _ _ _ _).2
      ⟨hmem, by rw [hage]; exact bucketIdxFor_range1 8 (by omega) (by omega)⟩
  · intro hmem hage
    show t60 ∈ (mkAgingBucket bucketSpec3 3 now dv ts).transactions
    exact (mem_mkAgingBucket _ _ _ _ _ _).2
      ⟨hmem, by rw [hage]; exact bucketIdxFor_range3 60 (by omega) (by omega)⟩
  · intro hmem hage
    show t61 ∈ (mkAgingBucket bucketSpec4 4 now dv ts).transactions
    exact (mem_mkAgingBucket _ _ _ _ _ _).2
      ⟨hmem, by rw [hage]; exact bucketIdxFor_range4 61 (by omega)⟩
  · intro hb hmem hin
    match i, hb with
    | 0, hb =>
      have hbeq : b = mkAgingBucket bucketSpec0 0 now dv ts := by
        simpa [getAgingBuckets] using hb.symm
      subst hbeq
      have hbounds : (0 : Int) ≤ ageDays now dv t ∧ ageDays now dv t ≤ 7 := by
        simpa [inBucket, mkAgingBucket, bucketSpec0] using hin
      exact (mem_mkAgingBucket _ _ _ _ _ _).2
        ⟨hmem, bucketIdxFor_range0 _ hbounds.1 hbounds.2⟩
    | 1, hb =>
      have hbeq : b = mkAgingBucket bucketSpec1 1 now dv ts := by
        simpa [getAgingBuckets] using hb.symm
      subst hbeq
      have hbounds : (8 : Int) ≤ ageDays now dv t ∧ ageDays now dv t ≤ 14 := by
        simpa [inBucket, mkAgingBucket, bucketSpec1] using hin
      exact (mem_mkAgingBucket _ _ _ _ _ _).2
        ⟨hmem, bucketIdxFor_range1 _ hbounds.1 hbounds.2⟩
    | 2, hb =>
      have hbeq : b = mkAgingBucket bucketSpec2 2 now dv ts := by
        simpa [getAgingBuckets] using hb.symm
      subst hbeq
      have hbounds : (15 : Int) ≤ ageDays now dv t ∧ ageDays now dv t ≤ 30 := by
        simpa [inBucket, mkAgingBucket, bucketSpec2] using hin
      exact (mem_mkAgingBucket _ _ _ _ _ _).2
        ⟨hmem, bucketIdxFor_range2 _ hbounds.1 hbounds.2⟩
    | 3, hb =>
      have hbeq : b = mkAgingBucket bucketSpec3 3 now dv ts := by
        simpa [getAgingBuckets] using hb.symm
      subst hbeq
      have hbounds : (31 : Int) ≤ ageDays now dv t ∧ ageDays now dv t ≤ 60 := by
        simpa [inBucket, mkAgingBucket, bucketSpec3] using hin
      exact (mem_mkAgingBucket _ _ _ _ _ _).2
        ⟨hmem, bucketIdxFor_range3 _ hbounds.1 hbounds.2⟩
    | 4, hb =>
      have hbeq : b = mkAgingBucket bucketSpec4 4 now dv ts := by
        simpa [getAgingBuckets] using hb.symm
      subst hbeq
      have hbounds : (61 : Int) ≤ ageDays now dv t := by
        simpa [inBucket, mkAgingBucket, bucketSpec4] using hin
      exact (mem_mkAgingBucket _ _ _ _ _ _).2
        ⟨hmem, bucketIdxFor_range4 _ hbounds⟩
    | (n + 5), hb =>
      exact absurd hb (by simp [getAgingBuckets])

/-- Reference clock for the concrete aging runs: midnight UTC 2024-03-01. -/
def demoNow : Int := isoMs "2024-03-01"

/-- Concrete transaction aged exactly 7 days on 2024-03-01. -/
def txAge7 : BankTransaction :=
  { id := "A7", date := "2024-02-23", description := "seven", amount := 10,
    type := "debit" }

/-- Concrete transaction aged exactly 8 days. -/
def txAge8 : BankTransaction :=
  { id := "A8", date := "2024-02-22", description := "eight", amount := 20,
    type := "debit" }

/-- Concrete transaction aged exactly 60 days. -/
def txAge60 : BankTransaction :=
  { id := "A60", date := "2024-01-01", description := "sixty", amount := 30,
    type := "debit" }

/-- Concrete transaction aged exactly 61 days. -/
def txAge61 : BankTransaction :=
  { id := "A61", date := "2023-12-31", description := "sixtyone", amount := 40,
    type := "debit" }

/-- Concrete transaction aged exactly 20 days. -/
def txAge20 : BankTransaction :=
  { id := "A20", date := "2024-02-10", description := "twenty", amount := 50,
    type := "debit" }

/-- The concrete aging input. -/
def demoAgingInput : List BankTransaction :=
  [txAge7, txAge8, txAge60, txAge61, txAge20]

/-- Witness for C5 at the concrete aging run. -/
theorem agingBuckets_boundaries_witness :
    (txAge7 ∈ ((getAgingBuckets demoNow isoMs demoAgingInput).getD 0 default).transactions) ∧
    (txAge8 ∈ ((getAgingBuckets demoNow isoMs demoAgingInput).getD 1 default).transactions) ∧
    (txAge60 ∈ ((getAgingBuckets demoNow isoMs demoAgingInput).getD 3 default).transactions) ∧
    (txAge61 ∈ ((getAgingBuckets demoNow isoMs demoAgingInput).getD 4 default).transactions) ∧
    (txAge20 ∈ ((getAgingBuckets demoNow isoMs demoAgingInput).getD 2 default).transactions) := by
  have H := agingBuckets_boundaries demoNow isoMs demoAgingInput
    txAge7 txAge8 txAge60 txAge61 txAge20 2
    ((getAgingBuckets demoNow isoMs demoAgingInput).getD 2 default)
  exact ⟨H.1 (by decide) (by decide), H.2.1 (by decide) (by decide),
    H.2.2.1 (by decide) (by decide), H.2.2.2.1 (by decide) (by decide),
    H.2.2.2.2 rfl (by decide) (by decide)⟩

/-- A negative numerator floor-divided by the day length stays negative. -/
theorem fdiv_day_neg (a : Int) (h : a < 0) : a.fdiv 86400000 < 0 := by
  cases a with
  | ofNat n => exact absurd h (not_lt.2 (Int.ofNat_nonneg n))
  | negSucc n =>
    have : (Int.negSucc n).fdiv 86400000 = Int.negSucc (n / 86400000) := rfl
    rw [this]
    exact Int.negSucc_lt_zero _

/-- C9: a bank transaction dated strictly after the reference clock has a
negative whole-day age, satisfies no bucket's bounds, and is placed by the
defensive fallback in the last (Overdue, 61+) bucket — not in Current. -/
theorem agingBuckets_negative_age_overdue (now : Int) (dv : String → Int)
    (ts : List BankTransaction) (t : BankTransaction)
    (hmem : t ∈ ts) (hfuture : now < dv t.date) :
    t ∈ ((getAgingBuckets now dv ts).getD 4 default).transactions ∧
      t ∉ ((getAgingBuckets now dv ts).getD 0 default).transactions := by
  have hneg : ageDays now dv t < 0 := by
    have hd : now - dv t.date < 0 := by omega
    exact fdiv_day_neg _ hd
  have h4 : bucketIdxFor (ageDays now dv t) = 4 := bucketIdxFor_neg _ hneg
  constructor
  · show t ∈ (mkAgingBucket bucketSpec4 4 now dv ts).transactions
    exact (mem_mkAgingBucket _ _ _ _ _ _).2 ⟨hmem, h4⟩
  · intro hc
    have h0 : bucketIdxFor (ageDays now dv t) = 0 :=
      ((mem_mkAgingBucket bucketSpec0 0 now dv ts t).1 hc).2
    rw [h4] at h0
    cases h0

/-- A transaction dated one day after the epoch reference clock 0. -/
def futureTx : BankTransaction :=
  { id := "F1", date := "1970-01-02", description := "future", amount := 5,
    type := "credit" }

/-- Witness for C9 at the concrete future-dated transaction. -/
theorem agingBuckets_negative_age_overdue_witness :
    futureTx ∈ ((getAgingBuckets 0 isoMs [futureTx]).getD 4 default).transactions ∧
      futureTx ∉ ((getAgingBuckets 0 isoMs [futureTx]).getD 0 default).transactions :=
  agingBuckets_negative_age_overdue 0 isoMs [futureTx] futureTx
    (by decide) (by decide)

/-- A receipt row is emitted exactly when the acceptance guard
`date && amount > 0` of the source holds. -/
theorem processReceiptRow_isSome (nd : String → String)
    (empAliases : List String) (row : Row) :
    (processReceiptRow nd empAliases row).isSome = true ↔
      (extractDate nd row ≠ "" ∧ 0 < extractAmount row) := by
  simp only [processReceiptRow]
  split
  · rename_i h
    simpa using h
  · rename_i h
    simpa using h

/-- `filterMap` keeps as many elements as the `isSome` filter. -/
theorem length_filterMap_isSome {α β : Type} (f : α → Option β) :
    ∀ l : List α,
      (l.filterMap f).length = (l.filter (fun a => (f a).isSome)).length
  | [] => rfl
  | a :: l => by
    cases hf : f a with
    | none =>
      simp [List.filterMap_cons, hf, List.filter_cons,
        length_filterMap_isSome f l]
    | some b =>
      simp [List.filterMap_cons, hf, List.filter_cons,
        length_filterMap_isSome f l]

/-- C6: in both receipt parsers a data row is accepted and emitted as a
receipt if and only if its date field normalizes successfully and its
extracted amount is strictly positive; the number of receipts a CSV row
list yields is the number of rows passing that guard; a row whose amount
field is `"0"` is rejected, and a row with no recognizable date field is
rejected. -/
theorem receiptRow_accept_iff (nd : String → String) (row : Row)
    (headers cells : List String) (rows : List Row) :
    ((processReceiptRowCSV nd row).isSome = true ↔
      (extractDate nd row ≠ "" ∧ 0 < extractAmount row)) ∧
    ((processReceiptRowExcel nd (rowDataOf headers cells)).isSome = true ↔
      (extractDate nd (rowDataOf headers cells) ≠ "" ∧
        0 < extractAmount (rowDataOf headers cells))) ∧
    ((rows.filterMap (processReceiptRowCSV nd)).length =
      (rows.filter (fun r =>
        decide (extractDate nd r ≠ "" ∧ 0 < extractAmount r))).length) ∧
    processReceiptRowCSV nd [("date", "2024-01-05"), ("amount", "0")] = none ∧
    processReceiptRowCSV nd [("employee", "jane"), ("amount", "5")] = none := by
  have hb : ∀ r : Row, (processReceiptRowCSV nd r).isSome =
      decide (extractDate nd r ≠ "" ∧ 0 < extractAmount r) := by
    intro r
    by_cases h : (extractDate nd r ≠ "" ∧ 0 < extractAmount r)
    · rw [decide_eq_true h]
      exact (processReceiptRow_isSome nd empAliasesCSV r).2 h
    · rw [decide_eq_false h]
      cases hs : (processReceiptRowCSV nd r).isSome
      · rfl
      · exact absurd ((processReceiptRow_isSome nd empAliasesCSV r).1 hs) h
  refine ⟨processReceiptRow_isSome nd empAliasesCSV row,
    processReceiptRow_isSome nd empAliasesExcel (rowDataOf headers cells),
    ?_, rfl, rfl⟩
  rw [length_filterMap_isSome]
  exact congrArg List.length (List.filter_congr (fun r _ => hb r))

/-- Counterexample to C7 as stated: given a header row and one data row in
which nothing survives extraction, the Excel receipt parser succeeds with
the empty receipt list instead of failing with a no-recognizable-columns
error. -/
theorem parseJobberExcel_empty_ok :
    parseJobberExcel (fun _ => "gen") (fun _ => "") [["header"], ["junk"]] =
      Except.ok [] := rfl

/-- C7 (amended): the CSV receipt parser fails with the empty-input error
on zero rows and with the distinct no-valid-receipts error when rows exist
but none survives; the Excel receipt parser fails with its empty-input
error when it has fewer than two rows (header plus data), but with at
least two rows it always succeeds, returning exactly the surviving
receipts — the empty list included. -/
theorem receiptParser_failure_policy (gen : Nat → String) (nd : String → String)
    (rows0 rows1 : List Row) (json0 json1 : List (List String)) :
    (rows0 = [] →
      parseJobberCSV gen nd rows0 = .error "CSV file appears to be empty") ∧
    (rows1 ≠ [] → rows1.filterMap (processReceiptRowCSV nd) = [] →
      parseJobberCSV gen nd rows1 =
        .error "No valid receipts found in file. Please check the column headers.") ∧
    (json0.length < 2 →
      parseJobberExcel gen nd json0 =
        .error "Excel file appears to be empty or has no data rows") ∧
    (2 ≤ json1.length →
      parseJobberExcel gen nd json1 =
        .ok (attachReceiptIds gen (excelSurvivors nd json1))) := by
  refine ⟨?_, ?_, ?_, ?_⟩
  · intro h
    subst h
    rfl
  · intro hne hfm
    cases rows1 with
    | nil => exact absurd rfl hne
    | cons r rs => simp [parseJobberCSV, hfm]
  · intro h
    unfold parseJobberExcel
    rw [if_pos h]
  · intro h
    unfold parseJobberExcel
    rw [if_neg (by omega)]

/-- Witness for C7 (amended) at concrete inputs for all four branches. -/
theorem receiptParser_failure_policy_witness :
    parseJobberCSV (fun _ => "w") (fun _ => "") [] =
      .error "CSV file appears to be empty" ∧
    parseJobberCSV (fun _ => "w") (fun _ => "") [[("amount", "5")]] =
      .error "No valid receipts found in file. Please check the column headers." ∧
    parseJobberExcel (fun _ => "w") (fun _ => "") [] =
      .error "Excel file appears to be empty or has no data rows" ∧
    parseJobberExcel (fun _ => "w") (fun _ => "") [["h"], ["x"]] =
      .ok (attachReceiptIds (fun _ => "w")
        (excelSurvivors (fun _ => "") [["h"], ["x"]])) := by
  have H := receiptParser_failure_policy (fun _ => "w") (fun _ => "")
    [] [[("amount", "5")]] [] [["h"], ["x"]]
  exact ⟨H.1 rfl, H.2.1 (by decide) rfl, H.2.2.1 (by decide),
    H.2.2.2 (by decide)⟩

/-- Counterexample to C8 as stated: a `.txt` receipt file whose content
contains a comma is routed onward to the CSV parser, not rejected with the
unsupported-format error before parsing. -/
theorem jobberRoute_txt_sniffed :
    jobberRoute "receipts.txt" "a,b" = JobberRoute.sniffCsv := rfl

/-- C8 (amended): `parseJobberFile` throws the unsupported-format error
exactly when the lowercased file name ends in none of `.xlsx`, `.xls`,
`.csv` and the file content contains neither a comma nor a tab; an
unrecognized extension whose content holds a comma or tab is instead
attempted as CSV. -/
theorem jobberRoute_unsupported_iff (fileName content : String) :
    jobberRoute fileName content = JobberRoute.unsupported ↔
      (!(jsEndsWith (lowerStr fileName) ".xlsx" ||
          jsEndsWith (lowerStr fileName) ".xls") &&
       !jsEndsWith (lowerStr fileName) ".csv" &&
       !(content.data.contains ',' ||
          content.data.contains (Char.ofNat 9))) = true := by
  cases h1 : (jsEndsWith (lowerStr fileName) ".xlsx" ||
      jsEndsWith (lowerStr fileName) ".xls") <;>
    cases h2 : jsEndsWith (lowerStr fileName) ".csv" <;>
      cases h3 : (content.data.contains ',' ||
          content.data.contains (Char.ofNat 9)) <;>
        (simp only [jobberRoute, h1, h2, h3]
         simp)

/-- When no line satisfies the header heuristic the whole scan stays in
the pre-header state and produces nothing. -/
theorem parseBankCSVAux_no_header (nd : String → String) :
    ∀ lines : List String,
      (∀ l ∈ lines, isHeaderLine (trimStr l) = false) →
      parseBankCSVAux nd false lines = []
  | [], _ => rfl
  | l :: ls, h => by
    have hrec := parseBankCSVAux_no_header nd ls
      (fun x hx => h x (List.mem_cons_of_mem _ hx))
    have hh : isHeaderLine ⟨trimChars l.data⟩ = false := h l (List.mem_cons_self _ _)
    unfold parseBankCSVAux
    cases he : (trimChars l.data).isEmpty with
    | true => simpa [he] using hrec
    | false => simpa [he, hh] using hrec

/-- Unfolding equation for one line of the bank-CSV scan. -/
theorem parseBankCSVAux_cons (nd : String → String) (hf : Bool) (l : String)
    (ls : List String) :
    parseBankCSVAux nd hf (l :: ls) =
      if (trimChars l.data).isEmpty then parseBankCSVAux nd hf ls
      else if hf then
        match parseBankCSVRow nd (trimChars l.data) with
        | some tx => tx :: parseBankCSVAux nd true ls
        | none => parseBankCSVAux nd true ls
      else if isHeaderLine ⟨trimChars l.data⟩ then parseBankCSVAux nd true ls
      else parseBankCSVAux nd false ls := rfl

/-- Every line before the first header-heuristic line is discarded, and the
scan continues after that header in data mode. -/
theorem parseBankCSVAux_skip_to_header (nd : String → String) (hl : String)
    (rest : List String) (hh : isHeaderLine (trimStr hl) = true) :
    ∀ pre : List String,
      (∀ l ∈ pre, isHeaderLine (trimStr l) = false) →
      parseBankCSVAux nd false (pre ++ hl :: rest) =
        parseBankCSVAux nd true rest
  | [], _ => by
    have hh2 : isHeaderLine ⟨trimChars hl.data⟩ = true := hh
    have hne : ¬((trimChars hl.data).isEmpty = true) := by
      intro hc
      have hnil : trimChars hl.data = [] := by simpa using hc
      rw [hnil] at hh2
      exact absurd hh2 (by decide)
    show parseBankCSVAux nd false (hl :: rest) = parseBankCSVAux nd true rest
    rw [parseBankCSVAux_cons, if_neg hne, if_neg (by simp), if_pos hh2]
  | l :: pre, h => by
    have hh0 : isHeaderLine ⟨trimChars l.data⟩ = false :=
      h l (List.mem_cons_self _ _)
    have hrec := parseBankCSVAux_skip_to_header nd hl rest hh pre
      (fun x hx => h x (List.mem_cons_of_mem _ hx))
    show parseBankCSVAux nd false (l :: (pre ++ hl :: rest)) =
      parseBankCSVAux nd true rest
    rw [parseBankCSVAux_cons]
    cases he : (trimChars l.data).isEmpty with
    | true =>
      rw [if_pos rfl]
      exact hrec
    | false =>
      rw [if_neg (by simp), if_neg (by simp), if_neg (by simp [hh0])]
      exact hrec

/-- C10: a bank-statement CSV in which no line satisfies the header
heuristic parses to the empty transaction list, even when it contains
otherwise-valid data rows; and every line preceding the first
header-heuristic line is silently discarded — the scan is the same as one
starting right after that header. -/
theorem parseBankCSV_requires_header (gen : Nat → String) (nd : String → String)
    (text : String) (pre rest : List String) (hl : String) :
    ((∀ l ∈ splitLines text, isHeaderLine (trimStr l) = false) →
      parseBankCSV gen nd text = []) ∧
    ((∀ l ∈ pre, isHeaderLine (trimStr l) = false) →
      isHeaderLine (trimStr hl) = true →
      parseBankCSVAux nd false (pre ++ hl :: rest) =
        parseBankCSVAux nd true rest) := by
  constructor
  · intro h
    unfold parseBankCSV
    rw [parseBankCSVAux_no_header nd (splitLines text) h]
    rfl
  · intro hpre hh
    exact parseBankCSVAux_skip_to_header nd hl rest hh pre hpre

/-- Witness for C10: a lone well-formed data row with no header line
parses to nothing, and a data line before the header is discarded. -/
theorem parseBankCSV_requires_header_witness :
    parseBankCSV (fun _ => "b") (fun _ => "") "2024-01-05,Coffee Shop,-12.50" = [] ∧
    parseBankCSVAux (fun _ => "") false
        (["1/2/2024,Old Shop,5.00"] ++
          "Date,Description,Amount" :: ["2024-01-05,Coffee Shop,-12.50"]) =
      parseBankCSVAux (fun _ => "") true ["2024-01-05,Coffee Shop,-12.50"] := by
  have H := parseBankCSV_requires_header (fun _ => "b") (fun _ => "")
    "2024-01-05,Coffee Shop,-12.50" ["1/2/2024,Old Shop,5.00"]
    ["2024-01-05,Coffee Shop,-12.50"] "Date,Description,Amount"
  exact ⟨H.1 (by decide), H.2 (by decide) (by decide)⟩
